import Mathlib

/-!
Shallow embedding of holopy's multisphere scattering theory
(scattering/theory/multisphere.py, class Multisphere, method calcField).

Physical quantities (positions, radii, refractive indices, optical
parameters) are modelled as rationals; the external Fortran kernels
(scsmfo amncalc and mieangfuncs tmatrix fields) are abstract function
parameters, since only their calling contract belongs to this repository.
Numeric array entries coming back from the kernels are modelled by the
type FVal, which distinguishes finite values, NaN and the two infinities
so that the NaN screens of the source can be stated faithfully.
-/

namespace HolopyMultisphere

/-- One IEEE-style numeric cell: a finite real, NaN, or an infinity. -/
inductive FVal
  | fin (v : ℝ)
  | nan
  | pinf
  | ninf

/-- The isnan test of numpy on one cell. -/
def FVal.isNan : FVal → Bool
  | .nan => true
  | _ => false

/-- The isfinite test on one cell (true only on finite values). -/
def FVal.isFiniteV : FVal → Bool
  | .fin _ => true
  | _ => false

/-- Negation of a cell. -/
def FVal.neg : FVal → FVal
  | .fin v => .fin (-v)
  | .nan => .nan
  | .pinf => .ninf
  | .ninf => .pinf

/-- IEEE addition of two cells. -/
def FVal.add : FVal → FVal → FVal
  | .fin a, .fin b => .fin (a + b)
  | .nan, _ => .nan
  | _, .nan => .nan
  | .pinf, .ninf => .nan
  | .ninf, .pinf => .nan
  | .pinf, _ => .pinf
  | _, .pinf => .pinf
  | .ninf, _ => .ninf
  | _, .ninf => .ninf

/-- IEEE subtraction of two cells. -/
def FVal.sub : FVal → FVal → FVal
  | .fin a, .fin b => .fin (a - b)
  | .nan, _ => .nan
  | _, .nan => .nan
  | .pinf, .pinf => .nan
  | .ninf, .ninf => .nan
  | .pinf, _ => .pinf
  | _, .pinf => .ninf
  | .ninf, _ => .ninf
  | _, .ninf => .pinf

/-- IEEE multiplication of a cell by a finite real scalar. -/
noncomputable def FVal.mulR (a : FVal) (b : ℝ) : FVal :=
  match a with
  | .fin v => .fin (v * b)
  | .nan => .nan
  | .pinf => if 0 < b then .pinf else if b < 0 then .ninf else .nan
  | .ninf => if 0 < b then .ninf else if b < 0 then .pinf else .nan

/-- IEEE square of a cell. -/
def FVal.square : FVal → FVal
  | .fin v => .fin (v * v)
  | .nan => .nan
  | .pinf => .pinf
  | .ninf => .pinf

/-- A complex numeric cell: real and imaginary part. -/
abbrev CVal := FVal × FVal

/-- numpy treats a complex cell as NaN when its real or imaginary part is. -/
def cIsNan (c : CVal) : Bool := c.1.isNan || c.2.isNan

/-- Multiplication of a complex cell by an exact complex scalar, computed
componentwise the way numpy multiplies a complex array by a scalar. -/
noncomputable def cmul (p : ℂ) (v : CVal) : CVal :=
  ((v.1.mulR p.re).sub (v.2.mulR p.im), (v.1.mulR p.im).add (v.2.mulR p.re))

/-- Squared magnitude of a complex cell (re^2 + im^2, IEEE style). -/
def cAbsSq (v : CVal) : FVal := v.1.square.add v.2.square

/-- One sample point of the output field: x, y and z component. -/
abbrev CVal3 := CVal × CVal × CVal

/-- Multiplication of a field sample by a complex scalar, componentwise. -/
noncomputable def cmul3 (p : ℂ) (v : CVal3) : CVal3 :=
  (cmul p v.1, cmul p v.2.1, cmul p v.2.2)

/-- A 3-vector of rational coordinates. -/
structure Vec3 where
  x : ℚ
  y : ℚ
  z : ℚ
deriving DecidableEq

/-- One sphere of a cluster: center, radius, complex refractive index
(real and imaginary part). -/
structure Sphere where
  center : Vec3
  r : ℚ
  nre : ℚ
  nim : ℚ
deriving DecidableEq

/-- The scatterer handed to the theory: either a SphereCluster (a list of
spheres) or some other scatterer variant the theory does not support. -/
inductive Scatterer
  | sphereCluster (scatterers : List Sphere)
  | nonCluster
deriving DecidableEq

/-- The optical train of the target: wavevector, medium refractive index,
medium wavelength and incident polarization. -/
structure Optics where
  wavevec : ℚ
  index : ℚ
  medWavelen : ℚ
  polarization : ℚ × ℚ
deriving DecidableEq

/-- The target geometry: its optics, the map taking an origin to the
sample points in spherical coordinates about that origin, and the map
that scatters a flat list of field samples back onto the native grid.
Both maps belong to collaborator code outside this repository and are
therefore abstract. -/
structure Target where
  optics : Optics
  positions_kr_theta_phi : Vec3 → List (ℝ × ℝ × ℝ)
  from_1d : List CVal3 → List CVal3

/-- The Multisphere theory object and its solver parameters. -/
structure Multisphere where
  niter : ℕ
  eps : ℚ
  meth : ℕ
  qeps1 : ℚ
  qeps2 : ℚ
deriving DecidableEq

/-- The constructor defaults of the Multisphere class:
niter=200, eps=1e-6, meth=1, qeps1=1e-5, qeps2=1e-8. -/
def Multisphere.default : Multisphere :=
  ⟨200, 1 / 1000000, 1, 1 / 100000, 1 / 100000000⟩

/-- The argument record handed to the scsmfo amncalc kernel, one field per
positional argument of the call in the source. -/
structure SolverInput where
  arg1 : ℕ
  x : List ℚ
  y : List ℚ
  z : List ℚ
  mre : List ℚ
  mim : List ℚ
  kr : List ℚ
  niter : ℕ
  eps : ℚ
  qeps1 : ℚ
  qeps2 : ℚ
  meth : ℕ
  ctrl : ℕ × ℕ
deriving DecidableEq

/-- What the amncalc kernel returns (its first returned value is discarded
by the caller and omitted here): the converged expansion order lmax, the
raw coefficient array amn0 indexed [sphere, multipole index, component],
and the convergence indicator (a Fortran LOGICAL through f2py, an int). -/
structure SolverOutput where
  lmax : ℕ
  amn0 : List (List (List CVal))
  converged : ℤ

/-- The abstract amncalc kernel. -/
abbrev AmncalcFn := SolverInput → SolverOutput

/-- The abstract tmatrix fields kernel: positions, truncated coefficients,
lmax, a literal 0, and the polarization. It returns the x, y and z field
component arrays. -/
abbrev TFieldsFn :=
  List (ℝ × ℝ × ℝ) → List (List (List CVal)) → ℕ → ℕ → (ℚ × ℚ) →
    List CVal × List CVal × List CVal

/-- Mean of a list of rationals (sum divided by length). -/
def meanQ (l : List ℚ) : ℚ := l.sum / (l.length : ℚ)

/-- Columnwise mean of the sphere centers: scatterer.centers.mean(0). -/
def centroidOf (spheres : List Sphere) : Vec3 :=
  ⟨meanQ (spheres.map fun s => s.center.x),
   meanQ (spheres.map fun s => s.center.y),
   meanQ (spheres.map fun s => s.center.z)⟩

/-- centers = (scatterer.centers - scatterer.centers.mean(0)) * wavevec. -/
def centeredScaled (optics : Optics) (spheres : List Sphere) : List Vec3 :=
  spheres.map fun s =>
    ⟨(s.center.x - (centroidOf spheres).x) * optics.wavevec,
     (s.center.y - (centroidOf spheres).y) * optics.wavevec,
     (s.center.z - (centroidOf spheres).z) * optics.wavevec⟩

/-- The separation guard of the source: (centers > 1e4).any(), an
elementwise strict comparison of every coordinate against 1e4. -/
def separationTooBig (centers : List Vec3) : Bool :=
  centers.any fun p =>
    decide ((10000 : ℚ) < p.x) || decide ((10000 : ℚ) < p.y) ||
      decide ((10000 : ℚ) < p.z)

/-- The argument record built for amncalc: centroid-relative wavevector
scaled x and y, the z column multiplied by -1 (the Fortran code directs
the propagation axis oppositely), the real and imaginary parts of
m = n / index, the radii times the wavevector, and the solver parameters
with the literal trailing control pair (0, 0). -/
def solverInput (th : Multisphere) (optics : Optics) (spheres : List Sphere) :
    SolverInput :=
  ⟨1,
   (centeredScaled optics spheres).map fun p => p.x,
   (centeredScaled optics spheres).map fun p => p.y,
   (centeredScaled optics spheres).map fun p => -1 * p.z,
   spheres.map fun s => s.nre / optics.index,
   spheres.map fun s => s.nim / optics.index,
   spheres.map fun s => s.r * optics.wavevec,
   th.niter, th.eps, th.qeps1, th.qeps2, th.meth, (0, 0)⟩

/-- The error taxonomy of the calculation.  In the source the radius and
separation failures are both UnrealizableScatterer instances (one carries
the offending sphere, the other the whole scatterer), MultisphereFieldNaN
subclasses UnrealizableScatterer, and the other two are plain
exceptions. -/
inductive ScatteringError
  | theoryNotCompatibleError (theory : Multisphere) (scatterer : Scatterer)
  | unrealizableScatterer (theory : Multisphere) (s : Sphere) (msg : String)
  | unrealizableCluster (theory : Multisphere) (scatterers : List Sphere)
      (msg : String)
  | multisphereFieldNaN (theory : Multisphere) (scatterers : List Sphere)
      (msg : String)
  | multisphereExpansionNaN
  | convergenceFailureMultisphere
deriving DecidableEq

/-- Message of the radius guard failure. -/
def radiusMsg : String :=
  "radius too large, field calculation would take forever"

/-- Message of the separation guard failure. -/
def sepMsg : String :=
  "Particle separation too large, calculation would take forever"

/-- limit = lmax**2 + 2*lmax; amn = amn0[:, 0:limit, :]. -/
def truncCoeffs (out : SolverOutput) : List (List (List CVal)) :=
  out.amn0.map fun row => row.take (out.lmax ^ 2 + 2 * out.lmax)

/-- np.isnan(amn).any() over the truncated coefficient array. -/
def coeffNaN (out : SolverOutput) : Bool :=
  (truncCoeffs out).any fun row => row.any fun entry => entry.any cIsNan

/-- The reconstruction call: tmatrix fields applied to the sample points
about the scatterer centroid, the truncated coefficients, lmax, the
literal 0, and the polarization. -/
def fieldsOf (tf : TFieldsFn) (spheres : List Sphere) (target : Target)
    (out : SolverOutput) : List CVal × List CVal × List CVal :=
  tf (target.positions_kr_theta_phi (centroidOf spheres)) (truncCoeffs out)
    out.lmax 0 target.optics.polarization

/-- np.isnan(fields[0][0]): the NaN test on the first entry of the first
component array only. -/
def headNan (f : List CVal × List CVal × List CVal) : Bool :=
  match f.1 with
  | [] => false
  | v :: _ => cIsNan v

/-- np.vstack(fields).T: one (x, y, z) triple per sample point. -/
def vstackT (f : List CVal × List CVal × List CVal) : List CVal3 :=
  f.1.zip (f.2.1.zip f.2.2)

/-- phase = np.exp(-1j*np.pi*2*scatterer.z.mean() / med_wavelen). -/
noncomputable def phaseOf (spheres : List Sphere) (medWavelen : ℚ) : ℂ :=
  Complex.exp (-Complex.I * (Real.pi : ℂ) * 2 *
    (meanQ (spheres.map fun s => s.center.z) : ℂ) / (medWavelen : ℂ))

/-- Everything after the solver call except the final phase factor: the
convergence check, the truncation with its NaN screen, the field
reconstruction with its NaN check, and the mapping back onto the grid. -/
def reconstruct (th : Multisphere) (tf : TFieldsFn) (spheres : List Sphere)
    (target : Target) (out : SolverOutput) :
    Except ScatteringError (List CVal3) :=
  if out.converged = 0 then
    .error .convergenceFailureMultisphere
  else if coeffNaN out then
    .error .multisphereExpansionNaN
  else if headNan (fieldsOf tf spheres target out) then
    .error (.multisphereFieldNaN th spheres "")
  else
    .ok (target.from_1d (vstackT (fieldsOf tf spheres target out)))

/-- return result * phase: the post-solver pipeline followed by the global
phase multiplication of every field sample. -/
noncomputable def afterSolve (th : Multisphere) (tf : TFieldsFn)
    (spheres : List Sphere) (target : Target) (out : SolverOutput) :
    Except ScatteringError (List CVal3) :=
  (reconstruct th tf spheres target out).map fun result =>
    result.map (cmul3 (phaseOf spheres target.optics.medWavelen))

/-- The body of Multisphere calcField: the type check, the per-sphere
radius guard (first offender raises), the centroid transform, the
separation guard, the solver call, and the post-solver pipeline. -/
noncomputable def calcField (th : Multisphere) (amncalc : AmncalcFn)
    (tf : TFieldsFn) (scatterer : Scatterer) (target : Target) :
    Except ScatteringError (List CVal3) :=
  match scatterer with
  | .nonCluster => .error (.theoryNotCompatibleError th .nonCluster)
  | .sphereCluster spheres =>
    match spheres.find? (fun s => decide (1000 < s.r * target.optics.wavevec)) with
    | some s => .error (.unrealizableScatterer th s radiusMsg)
    | none =>
      if separationTooBig (centeredScaled target.optics spheres) then
        .error (.unrealizableCluster th spheres sepMsg)
      else
        afterSolve th tf spheres target
          (amncalc (solverInput th target.optics spheres))

/-- Translation of every sphere center by a fixed vector. -/
def translateBy (v : Vec3) (spheres : List Sphere) : List Sphere :=
  spheres.map fun s =>
    ⟨⟨s.center.x + v.x, s.center.y + v.y, s.center.z + v.z⟩, s.r, s.nre, s.nim⟩

/-! ### Helper lemmas -/

lemma sum_map_add_const (l : List ℚ) (c : ℚ) :
    (l.map fun x => x + c).sum = l.sum + l.length * c := by
  induction l with
  | nil => simp
  | cons a t ih =>
    simp only [List.map_cons, List.sum_cons, ih, List.length_cons]
    push_cast
    ring

lemma meanQ_map_add_const (l : List ℚ) (c : ℚ) (h : l ≠ []) :
    meanQ (l.map fun x => x + c) = meanQ l + c := by
  have h0 : l.length ≠ 0 := fun hh => h (List.length_eq_zero.mp hh)
  have hn : (l.length : ℚ) ≠ 0 := Nat.cast_ne_zero.mpr h0
  unfold meanQ
  rw [List.length_map, sum_map_add_const, add_div, mul_div_cancel_left₀ _ hn]

lemma centroidOf_translateBy (v : Vec3) (ss : List Sphere) (h : ss ≠ []) :
    centroidOf (translateBy v ss) =
      ⟨(centroidOf ss).x + v.x, (centroidOf ss).y + v.y,
        (centroidOf ss).z + v.z⟩ := by
  have hne : ∀ f : Sphere → ℚ, ss.map f ≠ [] := by
    intro f hf
    exact h (List.map_eq_nil_iff.mp hf)
  have hx : (translateBy v ss).map (fun s => s.center.x) =
      (ss.map fun s => s.center.x).map fun q => q + v.x := by
    simp [translateBy, List.map_map, Function.comp]
  have hy : (translateBy v ss).map (fun s => s.center.y) =
      (ss.map fun s => s.center.y).map fun q => q + v.y := by
    simp [translateBy, List.map_map, Function.comp]
  have hz : (translateBy v ss).map (fun s => s.center.z) =
      (ss.map fun s => s.center.z).map fun q => q + v.z := by
    simp [translateBy, List.map_map, Function.comp]
  unfold centroidOf
  rw [hx, hy, hz, meanQ_map_add_const _ _ (hne _), meanQ_map_add_const _ _ (hne _),
    meanQ_map_add_const _ _ (hne _)]

lemma centeredScaled_translateBy (o : Optics) (v : Vec3) (ss : List Sphere) :
    centeredScaled o (translateBy v ss) = centeredScaled o ss := by
  rcases eq_or_ne ss [] with rfl | h
  · rfl
  · unfold centeredScaled
    rw [centroidOf_translateBy v ss h]
    unfold translateBy
    rw [List.map_map]
    refine List.map_congr_left fun s _ => ?_
    simp only [Function.comp]
    congr 1 <;> ring

lemma solverInput_translateBy (th : Multisphere) (o : Optics) (v : Vec3)
    (ss : List Sphere) :
    solverInput th o (translateBy v ss) = solverInput th o ss := by
  unfold solverInput
  rw [centeredScaled_translateBy]
  simp [translateBy, List.map_map, Function.comp]

lemma find?_radius_translateBy (v : Vec3) (ss : List Sphere) (k : ℚ)
    (h : ss.find? (fun s => decide (1000 < s.r * k)) = none) :
    (translateBy v ss).find? (fun s => decide (1000 < s.r * k)) = none := by
  rw [List.find?_eq_none] at h ⊢
  intro x hx
  rcases List.mem_map.mp hx with ⟨s, hs, rfl⟩
  simpa using h s hs

lemma reconstruct_ok_congr (th : Multisphere) (tf : TFieldsFn)
    (ss ss2 : List Sphere) (t t2 : Target) (out : SolverOutput)
    (pre : List CVal3)
    (hpos : t2.positions_kr_theta_phi (centroidOf ss2) =
      t.positions_kr_theta_phi (centroidOf ss))
    (hopt : t2.optics = t.optics) (hmap : t2.from_1d = t.from_1d)
    (hok : reconstruct th tf ss t out = .ok pre) :
    reconstruct th tf ss2 t2 out = .ok pre := by
  have hf : fieldsOf tf ss2 t2 out = fieldsOf tf ss t out := by
    unfold fieldsOf
    rw [hpos, hopt]
  unfold reconstruct at hok ⊢
  rw [hf, hmap]
  split_ifs at hok ⊢ <;> simp_all

lemma afterSolve_ok_elim (th : Multisphere) (tf : TFieldsFn)
    (ss : List Sphere) (t : Target) (out : SolverOutput) (vals : List CVal3)
    (hok : afterSolve th tf ss t out = .ok vals) :
    ∃ pre, reconstruct th tf ss t out = .ok pre ∧
      vals = pre.map (cmul3 (phaseOf ss t.optics.medWavelen)) := by
  unfold afterSolve at hok
  rcases hrec : reconstruct th tf ss t out with e | pre
  · rw [hrec] at hok
    simp [Except.map] at hok
  · rw [hrec] at hok
    simp only [Except.map, Except.ok.injEq] at hok
    exact ⟨pre, rfl, hok.symm⟩

lemma afterSolve_error_shape (th : Multisphere) (tf : TFieldsFn)
    (ss : List Sphere) (t : Target) (out : SolverOutput) (e : ScatteringError)
    (h : afterSolve th tf ss t out = .error e) :
    e = .convergenceFailureMultisphere ∨ e = .multisphereExpansionNaN ∨
      e = .multisphereFieldNaN th ss "" := by
  unfold afterSolve reconstruct at h
  split_ifs at h <;> simp_all [Except.map]

lemma calcField_cluster_error_shape (th : Multisphere) (A : AmncalcFn)
    (tf : TFieldsFn) (ss : List Sphere) (t : Target) (e : ScatteringError)
    (h : calcField th A tf (.sphereCluster ss) t = .error e) :
    (∃ s, ss.find? (fun s => decide (1000 < s.r * t.optics.wavevec)) = some s ∧
        e = .unrealizableScatterer th s radiusMsg) ∨
      e = .unrealizableCluster th ss sepMsg ∨
      e = .convergenceFailureMultisphere ∨ e = .multisphereExpansionNaN ∨
      e = .multisphereFieldNaN th ss "" := by
  simp only [calcField] at h
  rcases hfind : ss.find? (fun s => decide (1000 < s.r * t.optics.wavevec))
    with _ | s
  · rw [hfind] at h
    simp only at h
    split_ifs at h with hsep
    · simp only [Except.error.injEq] at h
      exact Or.inr (Or.inl h.symm)
    · have := afterSolve_error_shape th tf ss t _ e h
      tauto
  · rw [hfind] at h
    simp only [Except.error.injEq] at h
    exact Or.inl ⟨s, hfind, h.symm⟩

lemma calcField_ok_elim (th : Multisphere) (A : AmncalcFn) (tf : TFieldsFn)
    (ss : List Sphere) (t : Target) (vals : List CVal3)
    (hok : calcField th A tf (.sphereCluster ss) t = .ok vals) :
    ss.find? (fun s => decide (1000 < s.r * t.optics.wavevec)) = none ∧
      separationTooBig (centeredScaled t.optics ss) = false ∧
      afterSolve th tf ss t (A (solverInput th t.optics ss)) = .ok vals := by
  simp only [calcField] at hok
  rcases hfind : ss.find? (fun s => decide (1000 < s.r * t.optics.wavevec))
    with _ | s
  · rw [hfind] at hok
    simp only at hok
    split_ifs at hok with hsep
    exact ⟨hfind, by simpa using hsep, hok⟩
  · rw [hfind] at hok
    exact absurd hok (by simp)

lemma phaseOf_translateBy (v : Vec3) (ss : List Sphere) (mw : ℚ)
    (h : ss ≠ []) :
    phaseOf (translateBy v ss) mw =
      phaseOf ss mw *
        Complex.exp (-Complex.I * 2 * (Real.pi : ℂ) * (v.z : ℂ) / (mw : ℂ)) := by
  have hz : (translateBy v ss).map (fun s => s.center.z) =
      (ss.map fun s => s.center.z).map fun q => q + v.z := by
    simp [translateBy, List.map_map, Function.comp]
  have hne : ss.map (fun s => s.center.z) ≠ [] := by
    intro hf
    exact h (List.map_eq_nil_iff.mp hf)
  unfold phaseOf
  rw [hz, meanQ_map_add_const _ _ hne, ← Complex.exp_add]
  congr 1
  push_cast
  ring

lemma normSq_phase_shift (d mw : ℚ) :
    Complex.normSq
      (Complex.exp (-Complex.I * 2 * (Real.pi : ℂ) * (d : ℂ) / (mw : ℂ))) = 1 := by
  have h : -Complex.I * 2 * (Real.pi : ℂ) * (d : ℂ) / (mw : ℂ) =
      ((-(2 * Real.pi * (d : ℝ) / (mw : ℝ)) : ℝ) : ℂ) * Complex.I := by
    push_cast
    ring
  rw [h, ← Complex.sq_abs, Complex.abs_exp_ofReal_mul_I]
  norm_num

lemma cAbsSq_cmul_fin (p : ℂ) (a b : ℝ) :
    cAbsSq (cmul p (FVal.fin a, FVal.fin b)) =
      FVal.fin ((a * a + b * b) * Complex.normSq p) := by
  simp only [cmul, FVal.mulR, FVal.sub, FVal.add, FVal.square, cAbsSq,
    Complex.normSq_apply, FVal.fin.injEq]
  ring

/-! ### Claims -/

/-- Claim C9: a scatterer that is not a SphereCluster raises
TheoryNotCompatibleError carrying the theory and the scatterer, for every
solver kernel, reconstruction kernel and target, hence before any guard,
transform or solver invocation; a SphereCluster input never produces that
error. -/
theorem c9_theory_compatibility (th : Multisphere) :
    (∀ (A : AmncalcFn) (tf : TFieldsFn) (t : Target),
        calcField th A tf Scatterer.nonCluster t =
          .error (.theoryNotCompatibleError th Scatterer.nonCluster)) ∧
    (∀ (A : AmncalcFn) (tf : TFieldsFn) (t : Target) (ss : List Sphere)
        (th2 : Multisphere) (sc : Scatterer),
        calcField th A tf (Scatterer.sphereCluster ss) t ≠
          .error (.theoryNotCompatibleError th2 sc)) := by
  constructor
  · intro A tf t
    rfl
  · intro A tf t ss th2 sc h
    rcases calcField_cluster_error_shape th A tf ss t _ h with
      ⟨s, _, he⟩ | he | he | he | he <;> simp at he

/-- Claim C10: the solver inputs depend only on differences of sphere
centers: translating every sphere center by one fixed vector yields
exactly the same amncalc argument record (nondimensional x, y and
sign-flipped z position arrays included), because the centroid is
subtracted before scaling by the wavevector. -/
theorem c10_translation_invariant_solver_inputs (th : Multisphere)
    (o : Optics) (v : Vec3) (ss : List Sphere) :
    solverInput th o (translateBy v ss) = solverInput th o ss :=
  solverInput_translateBy th o v ss

/-- Claim C8: every successful calculation multiplies all field values by
the global phase factor exp(-i 2 pi mean(z)/medium wavelength).
Translating every sphere center by dz along the propagation axis, with
the target geometry re-origined to the new centroid, multiplies that
phase factor by exactly exp(-i 2 pi dz/medium wavelength), reproduces the
same pre-phase field values, and leaves the magnitude of every finite
field value unchanged. -/
theorem c8_global_phase (th : Multisphere) (ss : List Sphere) (dz : ℚ)
    (t t2 : Target) (hne : ss ≠ [])
    (hopt : t2.optics = t.optics)
    (hmap : t2.from_1d = t.from_1d)
    (hpos : t2.positions_kr_theta_phi (centroidOf (translateBy ⟨0, 0, dz⟩ ss)) =
      t.positions_kr_theta_phi (centroidOf ss)) :
    phaseOf (translateBy ⟨0, 0, dz⟩ ss) t2.optics.medWavelen =
      phaseOf ss t.optics.medWavelen *
        Complex.exp (-Complex.I * 2 * (Real.pi : ℂ) * (dz : ℂ) /
          (t.optics.medWavelen : ℂ)) ∧
    (∀ (A : AmncalcFn) (tf : TFieldsFn) (vals : List CVal3),
      calcField th A tf (.sphereCluster ss) t = .ok vals →
      ∃ pre : List CVal3,
        vals = pre.map (cmul3 (phaseOf ss t.optics.medWavelen)) ∧
        calcField th A tf (.sphereCluster (translateBy ⟨0, 0, dz⟩ ss)) t2 =
          .ok (pre.map (cmul3 (phaseOf (translateBy ⟨0, 0, dz⟩ ss)
            t2.optics.medWavelen)))) ∧
    (∀ a b : ℝ,
      cAbsSq (cmul (phaseOf (translateBy ⟨0, 0, dz⟩ ss) t2.optics.medWavelen)
          (FVal.fin a, FVal.fin b)) =
        cAbsSq (cmul (phaseOf ss t.optics.medWavelen)
          (FVal.fin a, FVal.fin b))) := by
  have hphase : phaseOf (translateBy ⟨0, 0, dz⟩ ss) t2.optics.medWavelen =
      phaseOf ss t.optics.medWavelen *
        Complex.exp (-Complex.I * 2 * (Real.pi : ℂ) * (dz : ℂ) /
          (t.optics.medWavelen : ℂ)) := by
    rw [hopt]
    exact phaseOf_translateBy ⟨0, 0, dz⟩ ss t.optics.medWavelen hne
  refine ⟨hphase, ?_, ?_⟩
  · intro A tf vals hok
    obtain ⟨hfind, hsep, hafter⟩ := calcField_ok_elim th A tf ss t vals hok
    obtain ⟨pre, hrec, hvals⟩ := afterSolve_ok_elim th tf ss t _ vals hafter
    refine ⟨pre, hvals, ?_⟩
    have hfind2 :=
      find?_radius_translateBy ⟨0, 0, dz⟩ ss t.optics.wavevec hfind
    have hrec2 : reconstruct th tf (translateBy ⟨0, 0, dz⟩ ss) t2
        (A (solverInput th t.optics ss)) = .ok pre :=
      reconstruct_ok_congr th tf ss _ t t2 _ pre hpos hopt hmap hrec
    simp only [calcField]
    rw [hopt, hfind2]
    simp only [centeredScaled_translateBy, hsep, Bool.false_eq_true,
      if_false, solverInput_translateBy]
    unfold afterSolve
    rw [hrec2, hopt]
    rfl
  · intro a b
    rw [cAbsSq_cmul_fin, cAbsSq_cmul_fin, hphase, Complex.normSq_mul,
      normSq_phase_shift, mul_one]

/-- Claim C1: for a SphereCluster passing the validity guards, the
multipole solver is handed exactly: the sphere positions with the
centroid (mean of centers) subtracted and multiplied by the wavevector,
the third (z, propagation) column additionally multiplied by -1; the
relative refractive index m = sphere index / medium index as separate
real and imaginary part lists; and the radii multiplied by the
wavevector. -/
theorem c1_solver_inputs (th : Multisphere) (ss : List Sphere) (t : Target)
    (hrad : ∀ s ∈ ss, s.r * t.optics.wavevec ≤ 1000)
    (hsep : separationTooBig (centeredScaled t.optics ss) = false) :
    (∀ (A : AmncalcFn) (tf : TFieldsFn),
        calcField th A tf (.sphereCluster ss) t =
          afterSolve th tf ss t (A (solverInput th t.optics ss))) ∧
    (solverInput th t.optics ss).x =
      ss.map (fun s =>
        (s.center.x - (ss.map fun s2 => s2.center.x).sum / (ss.length : ℚ)) *
          t.optics.wavevec) ∧
    (solverInput th t.optics ss).y =
      ss.map (fun s =>
        (s.center.y - (ss.map fun s2 => s2.center.y).sum / (ss.length : ℚ)) *
          t.optics.wavevec) ∧
    (solverInput th t.optics ss).z =
      ss.map (fun s =>
        -1 * ((s.center.z - (ss.map fun s2 => s2.center.z).sum /
          (ss.length : ℚ)) * t.optics.wavevec)) ∧
    (solverInput th t.optics ss).mre =
      ss.map (fun s => s.nre / t.optics.index) ∧
    (solverInput th t.optics ss).mim =
      ss.map (fun s => s.nim / t.optics.index) ∧
    (solverInput th t.optics ss).kr =
      ss.map (fun s => s.r * t.optics.wavevec) := by
  have hfind : ss.find? (fun s => decide (1000 < s.r * t.optics.wavevec)) =
      none := by
    rw [List.find?_eq_none]
    intro s hs
    simp only [decide_eq_true_eq]
    exact not_lt.mpr (hrad s hs)
  refine ⟨?_, ?_, ?_, ?_, ?_, ?_, ?_⟩
  · intro A tf
    simp only [calcField]
    rw [hfind]
    simp [hsep]
  all_goals
    simp [solverInput, centeredScaled, centroidOf, meanQ, List.map_map,
      Function.comp]

/-- Claim C2: for a converged solver result with expansion order lmax, the
retained coefficient array keeps exactly lmax^2 + 2*lmax entries along
the multipole axis (whenever the raw rows are at least that long), and no
raw entry at or beyond that index is ever read: two raw solver outputs
that agree below the truncation bound give identical downstream results
(NaN screen and field reconstruction included). -/
theorem c2_truncation (th : Multisphere) (tf : TFieldsFn) (ss : List Sphere)
    (t : Target) (out out2 : SolverOutput)
    (hl : out2.lmax = out.lmax) (hc : out2.converged = out.converged)
    (ha : truncCoeffs out2 = truncCoeffs out) :
    (∀ row ∈ out.amn0, out.lmax ^ 2 + 2 * out.lmax ≤ row.length →
        (row.take (out.lmax ^ 2 + 2 * out.lmax)).length =
          out.lmax ^ 2 + 2 * out.lmax) ∧
    afterSolve th tf ss t out2 = afterSolve th tf ss t out := by
  constructor
  · intro row _ hlen
    rw [List.length_take]
    exact min_eq_left hlen
  · simp only [afterSolve, reconstruct, coeffNaN, fieldsOf, hl, hc, ha]

/-- Claim C3: a solver result whose convergence indicator is 0 makes the
calculation fail with ConvergenceFailureMultisphere, whatever the
coefficient array holds and whatever the reconstruction kernel would
return: the check precedes the truncation NaN screen and the field
reconstruction, neither of which is ever executed. -/
theorem c3_convergence_failure (th : Multisphere) (ss : List Sphere)
    (t : Target) (out : SolverOutput) (h : out.converged = 0) :
    (∀ tf : TFieldsFn,
        afterSolve th tf ss t out = .error .convergenceFailureMultisphere) ∧
    (∀ (A : AmncalcFn) (tf : TFieldsFn),
        A (solverInput th t.optics ss) = out →
        ss.find? (fun s => decide (1000 < s.r * t.optics.wavevec)) = none →
        separationTooBig (centeredScaled t.optics ss) = false →
        calcField th A tf (.sphereCluster ss) t =
          .error .convergenceFailureMultisphere) := by
  have h1 : ∀ tf : TFieldsFn,
      afterSolve th tf ss t out = .error .convergenceFailureMultisphere := by
    intro tf
    unfold afterSolve reconstruct
    rw [if_pos h]
    rfl
  refine ⟨h1, ?_⟩
  intro A tf hA hfind hsep
  simp only [calcField]
  rw [hfind]
  simp only [hsep, Bool.false_eq_true, if_false]
  rw [hA]
  exact h1 tf

/-- Claim C5 (amended): for a converged solver result the screen applied
to the truncated coefficients is np.isnan: if any truncated entry has a
NaN real or imaginary part, the calculation fails with
MultisphereExpansionNaN whatever the reconstruction kernel would return
(field reconstruction is never executed); if no truncated entry is NaN,
that error is never raised.  Infinities are not NaN and pass the screen;
see the counterexample. -/
theorem c5_nan_screen (th : Multisphere) (ss : List Sphere) (t : Target)
    (out : SolverOutput) (hcv : out.converged ≠ 0) :
    ((∃ row ∈ truncCoeffs out, ∃ entry ∈ row, ∃ c ∈ entry,
        cIsNan c = true) →
      ∀ tf : TFieldsFn,
        afterSolve th tf ss t out = .error .multisphereExpansionNaN) ∧
    ((∀ row ∈ truncCoeffs out, ∀ entry ∈ row, ∀ c ∈ entry,
        cIsNan c = false) →
      ∀ tf : TFieldsFn,
        afterSolve th tf ss t out ≠ .error .multisphereExpansionNaN) := by
  constructor
  · intro hex tf
    have hcn : coeffNaN out = true := by
      unfold coeffNaN
      rw [List.any_eq_true]
      obtain ⟨row, hrow, entry, hentry, c, hc, hnan⟩ := hex
      refine ⟨row, hrow, ?_⟩
      rw [List.any_eq_true]
      refine ⟨entry, hentry, ?_⟩
      rw [List.any_eq_true]
      exact ⟨c, hc, hnan⟩
    unfold afterSolve reconstruct
    rw [if_neg hcv, if_pos hcn]
    rfl
  · intro hall tf
    have hcn : coeffNaN out = false := by
      unfold coeffNaN
      rw [List.any_eq_false]
      intro row hrow
      rw [Bool.not_eq_true, List.any_eq_false]
      intro entry hentry
      rw [Bool.not_eq_true, List.any_eq_false]
      intro c hc
      rw [Bool.not_eq_true]
      exact hall row hrow entry hentry c hc
    unfold afterSolve reconstruct
    rw [if_neg hcv, if_neg (by simp [hcn])]
    split_ifs <;> simp [Except.map]

/-- Claim C6 (amended): once the coefficient screen has passed, the field
validity check inspects np.isnan of the first entry of the first (x)
component array only: if that entry is NaN, the calculation fails with
MultisphereFieldNaN naming the theory and the scatterer, a failure kind
distinct from (and checked after) MultisphereExpansionNaN; if that first
entry is not NaN the error is never raised, even when other field entries
are NaN. -/
theorem c6_field_nan_first_entry (th : Multisphere) (ss : List Sphere)
    (t : Target) (out : SolverOutput) (tf : TFieldsFn)
    (hcv : out.converged ≠ 0) (hcn : coeffNaN out = false) :
    (headNan (fieldsOf tf ss t out) = true →
      afterSolve th tf ss t out =
        .error (.multisphereFieldNaN th ss "")) ∧
    (headNan (fieldsOf tf ss t out) = false →
      ∀ (th2 : Multisphere) (ss2 : List Sphere) (m : String),
        afterSolve th tf ss t out ≠
          .error (.multisphereFieldNaN th2 ss2 m)) := by
  constructor
  · intro hhead
    unfold afterSolve reconstruct
    rw [if_neg hcv, if_neg (by simp [hcn]), if_pos hhead]
    rfl
  · intro hhead th2 ss2 m
    unfold afterSolve reconstruct
    rw [if_neg hcv, if_neg (by simp [hcn]), if_neg (by simp [hhead])]
    simp [Except.map]

/-- Claim C7: a sphere with radius * wavevec strictly greater than 1000
makes the calculation fail with the radius-too-large
UnrealizableScatterer error identifying an offending sphere (the first
one in cluster order), whatever solver and reconstruction kernels are
supplied, so the solver is never invoked; when every sphere satisfies
radius * wavevec <= 1000 that error is never raised. -/
theorem c7_radius_guard (th : Multisphere) (ss : List Sphere) (t : Target) :
    ((∃ s ∈ ss, 1000 < s.r * t.optics.wavevec) →
      ∃ s2, ss.find? (fun s => decide (1000 < s.r * t.optics.wavevec)) =
          some s2 ∧ s2 ∈ ss ∧ 1000 < s2.r * t.optics.wavevec ∧
        ∀ (A : AmncalcFn) (tf : TFieldsFn),
          calcField th A tf (.sphereCluster ss) t =
            .error (.unrealizableScatterer th s2 radiusMsg)) ∧
    ((∀ s ∈ ss, s.r * t.optics.wavevec ≤ 1000) →
      ∀ (A : AmncalcFn) (tf : TFieldsFn) (s2 : Sphere) (m : String),
        calcField th A tf (.sphereCluster ss) t ≠
          .error (.unrealizableScatterer th s2 m)) := by
  constructor
  · intro hex
    rcases hfind : ss.find? (fun s => decide (1000 < s.r * t.optics.wavevec))
      with _ | s2
    · exfalso
      rw [List.find?_eq_none] at hfind
      obtain ⟨s, hs, hlt⟩ := hex
      exact hfind s hs (by simpa using hlt)
    · refine ⟨s2, hfind, List.mem_of_find?_eq_some hfind,
        by simpa using List.find?_some hfind, ?_⟩
      intro A tf
      simp only [calcField]
      rw [hfind]
  · intro hall A tf s2 m h
    have hfind : ss.find? (fun s => decide (1000 < s.r * t.optics.wavevec)) =
        none := by
      rw [List.find?_eq_none]
      intro s hs
      simp only [decide_eq_true_eq]
      exact not_lt.mpr (hall s hs)
    rcases calcField_cluster_error_shape th A tf ss t _ h with
      ⟨s3, hf, he⟩ | he | he | he | he
    · rw [hfind] at hf
      exact Option.noConfusion hf
    all_goals simp at he

/-! ### Concrete instances for the closed evaluation theorems -/

/-- A finite zero complex cell. -/
def e00 : CVal := (FVal.fin 0, FVal.fin 0)

/-- The theory object with its constructor defaults. -/
def thD : Multisphere := Multisphere.default

/-- A small concrete sphere. -/
def s0 : Sphere := ⟨⟨1, 2, 3⟩, 1, 3 / 2, 1 / 100⟩

/-- A concrete target with trivial collaborator maps. -/
def t0 : Target := ⟨⟨2, 4 / 3, 33 / 50, (1, 0)⟩, fun _ => [], fun l => l⟩

/-- A reconstruction kernel returning one finite sample. -/
def tf0 : TFieldsFn := fun _ _ _ _ _ => ([e00], [e00], [e00])

/-- A converged solver output with lmax = 1 and finite coefficients
(3 = 1^2 + 2*1 multipole entries). -/
def out0 : SolverOutput := ⟨1, [[[e00], [e00], [e00]]], 1⟩

/-- A solver kernel constantly returning out0. -/
def A0 : AmncalcFn := fun _ => out0

/-- out0 with NaN junk appended beyond the truncation bound. -/
def out0b : SolverOutput :=
  ⟨1, [[[e00], [e00], [e00], [(FVal.nan, FVal.nan)]]], 1⟩

/-- An unconverged solver output full of NaN scratch. -/
def outNC : SolverOutput := ⟨2, [[[(FVal.nan, FVal.nan)]]], 0⟩

/-- A converged solver output with a NaN truncated coefficient. -/
def outNaN : SolverOutput := ⟨1, [[[(FVal.nan, FVal.fin 0)]]], 1⟩

/-- A converged solver output with an infinite truncated coefficient. -/
def outInf : SolverOutput := ⟨1, [[[(FVal.pinf, FVal.fin 0)]]], 1⟩

/-- A reconstruction kernel with a NaN away from the first entry of the
first component array. -/
def tfOffHead : TFieldsFn := fun _ _ _ _ _ =>
  ([e00, (FVal.nan, FVal.nan)], [e00, e00], [e00, e00])

/-- A reconstruction kernel with a NaN in the first entry of the first
component array. -/
def tfHead : TFieldsFn := fun _ _ _ _ _ =>
  ([(FVal.nan, FVal.fin 0)], [e00], [e00])

/-- A sphere violating the radius guard for wavevec 2. -/
def sBig : Sphere := ⟨⟨0, 0, 0⟩, 1000, 3 / 2, 0⟩

/-- A concrete target with wavevec 1 and trivial collaborator maps. -/
def t1 : Target := ⟨⟨1, 4 / 3, 33 / 50, (1, 0)⟩, fun _ => [], fun l => l⟩

/-- Three collinear spheres whose centroid is the origin and whose
centered, scaled x coordinates are (-20000, 10000, 10000): one coordinate
of magnitude 2e4, none above +1e4. -/
def ssC4 : List Sphere :=
  [⟨⟨-20000, 0, 0⟩, 1, 3 / 2, 0⟩, ⟨⟨10000, 0, 0⟩, 1, 3 / 2, 0⟩,
    ⟨⟨10000, 0, 0⟩, 1, 3 / 2, 0⟩]

/-- The mirror image of ssC4: centered, scaled x coordinates
(20000, -10000, -10000). -/
def ssC4m : List Sphere :=
  [⟨⟨20000, 0, 0⟩, 1, 3 / 2, 0⟩, ⟨⟨-10000, 0, 0⟩, 1, 3 / 2, 0⟩,
    ⟨⟨-10000, 0, 0⟩, 1, 3 / 2, 0⟩]

/-- Claim C4 evaluation: the separation guard of the source tests
(centers > 1e4).any(), a signed comparison, not a magnitude one.  For the
cluster ssC4, whose centered and scaled coordinates contain -20000 (a
coordinate of magnitude 2e4), no guard fires, the solver is invoked and
the calculation completes; the mirrored cluster ssC4m (coordinate
+20000) does raise the separation error, for every solver and
reconstruction kernel. -/
theorem c4_signed_separation_guard :
    (centeredScaled t1.optics ssC4).any
        (fun p => decide ((10000 : ℚ) < |p.x|)) = true ∧
    separationTooBig (centeredScaled t1.optics ssC4) = false ∧
    (∃ v, calcField thD A0 tf0 (.sphereCluster ssC4) t1 = .ok v) ∧
    ∀ (A : AmncalcFn) (tf : TFieldsFn),
      calcField thD A tf (.sphereCluster ssC4m) t1 =
        .error (.unrealizableCluster thD ssC4m sepMsg) := by
  have hcs : centeredScaled t1.optics ssC4 =
      [⟨-20000, 0, 0⟩, ⟨10000, 0, 0⟩, ⟨10000, 0, 0⟩] := by
    simp only [centeredScaled, centroidOf, meanQ, ssC4, t1, List.map_cons,
      List.map_nil, List.sum_cons, List.sum_nil, List.length_cons,
      List.length_nil]
    norm_num
  have hcsm : centeredScaled t1.optics ssC4m =
      [⟨20000, 0, 0⟩, ⟨-10000, 0, 0⟩, ⟨-10000, 0, 0⟩] := by
    simp only [centeredScaled, centroidOf, meanQ, ssC4m, t1, List.map_cons,
      List.map_nil, List.sum_cons, List.sum_nil, List.length_cons,
      List.length_nil]
    norm_num
  have habs : |(-20000 : ℚ)| = 20000 := by
    rw [abs_of_nonpos (by norm_num)]
    norm_num
  have hfind : ssC4.find?
      (fun s => decide (1000 < s.r * t1.optics.wavevec)) = none := by
    rw [List.find?_eq_none]
    intro s hs
    fin_cases hs <;> norm_num [t1]
  have hfindm : ssC4m.find?
      (fun s => decide (1000 < s.r * t1.optics.wavevec)) = none := by
    rw [List.find?_eq_none]
    intro s hs
    fin_cases hs <;> norm_num [t1]
  have hsep : separationTooBig (centeredScaled t1.optics ssC4) = false := by
    rw [hcs]
    simp only [separationTooBig, List.any_cons, List.any_nil]
    norm_num
  have hsepm : separationTooBig (centeredScaled t1.optics ssC4m) = true := by
    rw [hcsm]
    simp only [separationTooBig, List.any_cons, List.any_nil]
    norm_num
  refine ⟨?_, hsep, ?_, ?_⟩
  · rw [hcs]
    simp only [List.any_cons, List.any_nil, habs]
    norm_num
  · have hcalc : calcField thD A0 tf0 (.sphereCluster ssC4) t1 =
        afterSolve thD tf0 ssC4 t1 out0 := by
      simp only [calcField]
      rw [hfind]
      simp only [hsep, Bool.false_eq_true, if_false]
      rfl
    rw [hcalc]
    exact ⟨_, rfl⟩
  · intro A tf
    simp only [calcField]
    rw [hfindm]
    simp [hsepm]

/-- Claim C5 counterexample: an infinite truncated coefficient is
non-finite but not NaN; it does not raise MultisphereExpansionNaN and the
calculation completes. -/
theorem c5_infinite_coefficient_no_error :
    FVal.isFiniteV FVal.pinf = false ∧ FVal.isNan FVal.pinf = false ∧
    truncCoeffs outInf = [[[(FVal.pinf, FVal.fin 0)]]] ∧
    ∃ v, afterSolve thD tf0 [s0] t0 outInf = .ok v := by
  exact ⟨rfl, rfl, rfl, _, rfl⟩

/-- Claim C6 counterexample: a NaN field value at the second sample point
of the first component does not raise MultisphereFieldNaN, because only
fields[0][0] is inspected; the calculation completes. -/
theorem c6_offhead_nan_no_error :
    cIsNan (FVal.nan, FVal.nan) = true ∧
    fieldsOf tfOffHead [s0] t0 out0 =
      ([e00, (FVal.nan, FVal.nan)], [e00, e00], [e00, e00]) ∧
    ∃ v, afterSolve thD tfOffHead [s0] t0 out0 = .ok v := by
  exact ⟨rfl, rfl, _, rfl⟩

/-! ### Witnesses -/

/-- Witness for C1 at a concrete one-sphere cluster. -/
theorem c1_solver_inputs_witness :
    (solverInput thD t0.optics [s0]).kr =
      [s0].map (fun s => s.r * t0.optics.wavevec) :=
  (c1_solver_inputs thD [s0] t0
    (by
      intro s hs
      fin_cases hs
      norm_num [s0, t0])
    (by
      simp only [separationTooBig, centeredScaled, centroidOf, meanQ, s0, t0,
        List.map_cons, List.map_nil, List.sum_cons, List.sum_nil,
        List.length_cons, List.length_nil, List.any_cons, List.any_nil]
      norm_num)).2.2.2.2.2.2

/-- Witness for C2: a raw coefficient array with NaN junk appended beyond
the truncation bound gives the same downstream result. -/
theorem c2_truncation_witness :
    afterSolve thD tf0 [s0] t0 out0b = afterSolve thD tf0 [s0] t0 out0 :=
  (c2_truncation thD tf0 [s0] t0 out0 out0b rfl rfl rfl).2

/-- Witness for C3: an unconverged solver output with NaN scratch
coefficients reports exactly the convergence failure. -/
theorem c3_convergence_failure_witness :
    afterSolve thD tf0 [s0] t0 outNC =
      .error .convergenceFailureMultisphere :=
  (c3_convergence_failure thD [s0] t0 outNC rfl).1 tf0

/-- Witness for C5 at a concrete NaN coefficient. -/
theorem c5_nan_screen_witness :
    afterSolve thD tf0 [s0] t0 outNaN = .error .multisphereExpansionNaN :=
  (c5_nan_screen thD [s0] t0 outNaN (by decide)).1
    ⟨[[(FVal.nan, FVal.fin 0)]], List.mem_singleton_self _,
      [(FVal.nan, FVal.fin 0)], List.mem_singleton_self _,
      (FVal.nan, FVal.fin 0), List.mem_singleton_self _, rfl⟩ tf0

/-- Witness for C6: a NaN in the first entry of the first component array
raises the field NaN error naming the theory and the scatterer. -/
theorem c6_field_nan_first_entry_witness :
    afterSolve thD tfHead [s0] t0 out0 =
      .error (.multisphereFieldNaN thD [s0] "") :=
  (c6_field_nan_first_entry thD [s0] t0 out0 tfHead (by decide) rfl).1 rfl

/-- Witness for C7: radius 1000 with wavevec 2 exceeds the bound and the
calculation reports the radius guard failure on that sphere. -/
theorem c7_radius_guard_witness :
    calcField thD A0 tf0 (.sphereCluster [sBig]) t0 =
      .error (.unrealizableScatterer thD sBig radiusMsg) := by
  obtain ⟨s2, hfind, _, _, hall⟩ :=
    (c7_radius_guard thD [sBig] t0).1
      ⟨sBig, List.mem_singleton_self _, by norm_num [sBig, t0]⟩
  have hfs : [sBig].find?
      (fun s => decide (1000 < s.r * t0.optics.wavevec)) = some sBig :=
    List.find?_cons_of_pos _ (by norm_num [sBig, t0])
  rw [hfs] at hfind
  injection hfind with h3
  subst h3
  exact hall A0 tf0

/-- Witness for C8 at a concrete one-sphere cluster translated by 1 along
the propagation axis. -/
theorem c8_global_phase_witness :
    phaseOf (translateBy ⟨0, 0, 1⟩ [s0]) t0.optics.medWavelen =
      phaseOf [s0] t0.optics.medWavelen *
        Complex.exp (-Complex.I * 2 * (Real.pi : ℂ) * ((1 : ℚ) : ℂ) /
          (t0.optics.medWavelen : ℂ)) :=
  (c8_global_phase thD [s0] 1 t0 t0 (by simp) rfl rfl rfl).1

end HolopyMultisphere
